import Mathlib

/-!
Verification of the Wasabi WebAssembly instrumenter
(`src/instrumentation/own/wasm-instrumentation`), a shallow embedding of
`instrument/add_hooks.rs`, `instrument/js_codegen.rs` and the parts of the
AST (`ast/highlevel.rs`) they use.

Conventions of the embedding:
* `usize`/`u32` indices are `Nat`; where the source casts with `as i32` we
  use `usizeToI32`, which performs the two's-complement wrap to a signed
  32-bit integer explicitly.
* Float constant payloads (`f32`/`f64`) are carried as raw bit patterns
  (`Nat`); no claim inspects them.
* Rust panics (`expect`, `unreachable!`, `assert!`, out-of-bounds indexing)
  are modelled by returning `none`.
* The numeric opcodes of the `Instr` enum are represented by four
  group-carrying constructors (`Unary`, `Binary`, `MemoryLoad`,
  `MemoryStore`) holding the opcode mnemonic; this mirrors exactly how
  `add_hooks` dispatches on `instr.group()`, and the mnemonic string plays
  the role of `std::mem::discriminant` (distinct variants have distinct
  mnemonics).
-/

/-- Value types of Wasm MVP, from `ast/highlevel.rs` (`ValType`). The
declaration order I32, I64, F32, F64 also fixes the derived `Ord` used by
`Vec::sort` in `add_hooks`. -/
inductive ValType where
  | I32
  | I64
  | F32
  | F64
deriving DecidableEq, Repr

open ValType

/-- Rank realising the derived Rust `Ord` on `ValType` (declaration order). -/
def ValType.rank : ValType → Nat
  | I32 => 0
  | I64 => 1
  | F32 => 2
  | F64 => 3

/-- Modelled from the spec: the `Display` impl of `ValType` is not under
`src/`; the mangling example in `js_codegen.rs` ("call" + [I32, F32] ->
"call_i32_f32") fixes the lowercase names. -/
def ValType.toString : ValType → String
  | I32 => "i32"
  | I64 => "i64"
  | F32 => "f32"
  | F64 => "f64"

/-- The `FunctionType` of `ast/highlevel.rs`: parameter and result type vectors. -/
structure FunctionType where
  params : List ValType
  results : List ValType
deriving DecidableEq, Repr

/-- The `Memarg` of `ast/highlevel.rs`: alignment and offset immediates. -/
structure Memarg where
  alignment : Nat
  offset : Nat
deriving DecidableEq, Repr

/-- The value of `Memarg::default()`. -/
def Memarg.default : Memarg := ⟨0, 0⟩

/-- The instruction enum of `ast/highlevel.rs`, with the numeric/memory
opcodes folded into group-carrying constructors (see the header comment).
Indices (`Idx<T>`) are plain `Nat`. -/
inductive Instr where
  | Unreachable
  | Nop
  | Block (ty : Option ValType)
  | Loop (ty : Option ValType)
  | If (ty : Option ValType)
  | Else
  | End
  | Br (label : Nat)
  | BrIf (label : Nat)
  | BrTable (table : List Nat) (default : Nat)
  | Return
  | Call (func : Nat)
  | CallIndirect (type_ : FunctionType)
  | Drop
  | Select
  | GetLocal (idx : Nat)
  | SetLocal (idx : Nat)
  | TeeLocal (idx : Nat)
  | GetGlobal (idx : Nat)
  | SetGlobal (idx : Nat)
  | CurrentMemory
  | GrowMemory
  | I32Const (v : Int)
  | I64Const (v : Int)
  | F32Const (bits : Nat)
  | F64Const (bits : Nat)
  | Unary (op : String) (input_ty : ValType) (result_ty : ValType)
  | Binary (op : String) (first_ty : ValType) (second_ty : ValType) (result_ty : ValType)
  | MemoryLoad (op : String) (ty : ValType) (memarg : Memarg)
  | MemoryStore (op : String) (ty : ValType) (memarg : Memarg)
deriving DecidableEq, Repr

/-- The `to_instr_name` mapping: canonical opcode mnemonic. Its impl is not under
`src/`; the control/parametric names are fixed by the hook names appearing
in `add_hooks.rs` and the spec (get_local, current_memory, ...). For the
group-carrying constructors the mnemonic is stored in the constructor. -/
def Instr.toInstrName : Instr → String
  | .Unreachable => "unreachable"
  | .Nop => "nop"
  | .Block _ => "block"
  | .Loop _ => "loop"
  | .If _ => "if"
  | .Else => "else"
  | .End => "end"
  | .Br _ => "br"
  | .BrIf _ => "br_if"
  | .BrTable _ _ => "br_table"
  | .Return => "return"
  | .Call _ => "call"
  | .CallIndirect _ => "call_indirect"
  | .Drop => "drop"
  | .Select => "select"
  | .GetLocal _ => "get_local"
  | .SetLocal _ => "set_local"
  | .TeeLocal _ => "tee_local"
  | .GetGlobal _ => "get_global"
  | .SetGlobal _ => "set_global"
  | .CurrentMemory => "current_memory"
  | .GrowMemory => "grow_memory"
  | .I32Const _ => "i32.const"
  | .I64Const _ => "i64.const"
  | .F32Const _ => "f32.const"
  | .F64Const _ => "f64.const"
  | .Unary op _ _ => op
  | .Binary op _ _ _ => op
  | .MemoryLoad op _ _ => op
  | .MemoryStore op _ _ => op

/-- Two's-complement wrap of an unsigned integer to a signed 32-bit value:
the semantics of Rust's `as i32` casts in `add_hooks.rs`. -/
def usizeToI32 (n : Nat) : Int := ((n : Int) + 2 ^ 31) % 2 ^ 32 - 2 ^ 31

/-- The `i32.wrap/i64` instruction as emitted by the i64 splitting. -/
def i32WrapI64 : Instr := .Unary "i32.wrap_i64" I64 I32

/-- The `i64.shr_u` instruction as emitted by the i64 splitting. -/
def i64ShrU : Instr := .Binary "i64.shr_u" I64 I64 I64

/-- Modelled from the spec: `convert_i64_instr` lives in `convert_i64.rs`,
which is not under `src/`. Per spec section 4.5, a value-producing
instruction of type i64 is followed by split instructions: `i32_wrap_i64`
for the low half and `const 32; i64_shr_u; i32_wrap_i64` for the high half
(the producing instruction is replayed to obtain the value twice). For any
other type the instruction is emitted unchanged. -/
def convert_i64_instr (instr : Instr) (ty : ValType) : List Instr :=
  match ty with
  | I64 => [instr, i32WrapI64, instr, .I64Const 32, i64ShrU, i32WrapI64]
  | _ => [instr]

/-- Modelled from the spec: `convert_i64_type` lives in `convert_i64.rs`,
which is not under `src/`. Per `add_hooks.rs` (comment at `add_hook`) and
spec section 4.4, i64 is expanded to a pair of i32s, all other types are
kept. -/
def convert_i64_type (ty : ValType) : List ValType :=
  match ty with
  | I64 => [I32, I32]
  | ty => [ty]

/-- Rust `join` with separator underscore on a list of strings: empty for the empty list, otherwise
the elements separated by single underscores. -/
def joinUnderscore : List String → String
  | [] => ""
  | [s] => s
  | s :: rest => s ++ "_" ++ joinUnderscore rest

/-- The `append_mangled_tys` helper of `js_codegen.rs`: `prefix + "_" + tys.join("_")`. -/
def append_mangled_tys (pre : String) (tys : List ValType) : String :=
  pre ++ "_" ++ joinUnderscore (tys.map ValType.toString)

/-- A hook function import, produced by `add_hook` in `add_hooks.rs`
(`module.add_function_import(FunctionType::new(arg_tys, vec![]), "hooks", name)`). -/
structure HookImport where
  module_ : String
  name : String
  type_ : FunctionType
deriving DecidableEq, Repr

/-- The `add_hook` function of `add_hooks.rs`: prepends two I32 parameters (function
index, instruction index), expands each i64 argument via
`convert_i64_type`, and registers a function import from module "hooks"
with no results. -/
def add_hook (name : String) (arg_tys_ : List ValType) : HookImport :=
  { module_ := "hooks"
    name := name
    type_ := ⟨[I32, I32] ++ arg_tys_.flatMap convert_i64_type, []⟩ }

/-- The `save_stack_to_locals` helper of `add_hooks.rs`: `set_local` for
`locals[n-1] .. locals[1]`, then `tee_local locals[0]`, then `get_local`
for `locals[1] .. locals[n-1]`. -/
def save_stack_to_locals (locals : List Nat) : List Instr :=
  ((locals.drop 1).reverse.map .SetLocal)
    ++ ((locals.take 1).map .TeeLocal)
    ++ ((locals.drop 1).map .GetLocal)

/-- The `restore_locals_with_i64_handling` helper of `add_hooks.rs`: for each
`(local, type)` pair in order, a `get_local` with i64 splitting. (The
source asserts the two slices have equal length; all call sites satisfy
this, and `zip` truncates to the shorter one.) -/
def restore_locals_with_i64_handling (locals : List Nat) (local_tys : List ValType) : List Instr :=
  (locals.zip local_tys).flatMap fun lt => convert_i64_instr (.GetLocal lt.1) lt.2

/-- An entry of the abstract type stack: either a value type or the marker
pushed by `begin_block`, remembering the declared block type. -/
inductive TypeStackEntry where
  | val (ty : ValType)
  | blockBegin (block_ty : Option ValType)
deriving DecidableEq, Repr

/-- Modelled from the spec: `TypeStack` lives in `type_stack.rs`, which is
not under `src/`. Per spec section 4.2 it is an abstract interpreter
maintaining a stack of value types with block frame markers. -/
abbrev TypeStack := List TypeStackEntry

/-- The `TypeStack::push` operation. -/
def TypeStack.push (ts : TypeStack) (ty : ValType) : TypeStack :=
  .val ty :: ts

/-- The `TypeStack::pop` operation: pops a value type; underflow or a frame marker on top
is fatal (`none`). -/
def TypeStack.pop : TypeStack → Option (ValType × TypeStack)
  | .val ty :: rest => some (ty, rest)
  | _ => none

/-- The `TypeStack::begin_block` operation: push a frame marker remembering the block type. -/
def TypeStack.beginBlock (ts : TypeStack) (block_ty : Option ValType) : TypeStack :=
  .blockBegin block_ty :: ts

/-- The `TypeStack::end_block` operation: pop until the matching frame marker and return
the declared block type; no marker is fatal (`none`). -/
def TypeStack.endBlock : TypeStack → Option (Option ValType × TypeStack)
  | [] => none
  | .blockBegin block_ty :: rest => some (block_ty, rest)
  | .val _ :: rest => TypeStack.endBlock rest

/-- Pop the given value types (listed top first), asserting each matches. -/
def TypeStack.popTys : TypeStack → List ValType → Option TypeStack
  | ts, [] => some ts
  | .val ty' :: ts, ty :: rest => if ty' = ty then TypeStack.popTys ts rest else none
  | _, _ :: _ => none

/-- The `TypeStack::op(inputs, outputs)` operation: pop the inputs (last input is on
top), assert they match, push the outputs in order. -/
def TypeStack.op (ts : TypeStack) (inputs outputs : List ValType) : Option TypeStack :=
  (ts.popTys inputs.reverse).map fun ts' => outputs.foldl TypeStack.push ts'

/-- The `Begin` enum from `add_hooks.rs`: a block-stack frame recording the
begin kind and (except for `Function`) the begin instruction's index. -/
inductive Begin where
  | Function
  | Block (iidx : Nat)
  | Loop (iidx : Nat)
  | If (iidx : Nat)
  | Else (iidx : Nat)
deriving DecidableEq, Repr

/-- The `label_to_instr_idx` helper of `add_hooks.rs`. The block stack is kept top
first, so the label-th frame from the top is `begin_stack.get? label`;
out-of-range labels are fatal (`none`). -/
def label_to_instr_idx (begin_stack : List Begin) (label : Nat) : Option Nat :=
  (begin_stack.get? label).map fun target_block =>
    match target_block with
    | .Function => 0
    | .Loop begin_iidx => begin_iidx
    | .If i => i
    | .Else i => i
    | .Block i => i

/-- The `BrTableInfo` record as appended to `module_info.br_tables`. Modelled from the
spec (`static_info.rs` is not under `src/`): the recorded data are the
target labels and the default label. -/
structure BrTableInfo where
  table : List Nat
  default : Nat
deriving DecidableEq, Repr

/-- The `function.add_fresh_local(ty)` method of the high-level AST (its impl is not
under `src/`; per spec section 9 it appends to the function's local vector
and returns the new index, parameters and locals sharing one index space
with parameters first). -/
def addFreshLocal (params locals : List ValType) (ty : ValType) : Nat × List ValType :=
  (params.length + locals.length, locals ++ [ty])

/-- The `function.add_fresh_locals(tys)` method: iterated `add_fresh_local`. -/
def addFreshLocals (params locals : List ValType) : List ValType → List Nat × List ValType
  | [] => ([], locals)
  | ty :: rest =>
    let a := addFreshLocal params locals ty
    let b := addFreshLocals params a.2 rest
    (a.1 :: b.1, b.2)

/-- The `function.local_type(idx)` method: parameters first, then explicit locals. -/
def localType (params locals : List ValType) (idx : Nat) : Option ValType :=
  (params ++ locals).get? idx

/-- The hook function indices captured by the instrumentation loop in
`add_hooks`: one field per monomorphic hook variable, plus the lookup
functions realized by `PolymorphicHookMap::get_call`, the
`monomorphic_hook_call` closure and the `call_result_hooks` map (lookup
failure = Rust panic = `none`). Lookups are keyed on the opcode mnemonic,
which identifies the Rust enum discriminant. -/
structure Hooks where
  if_hook : Nat
  br_hook : Nat
  br_if_hook : Nat
  br_table_hook : Nat
  begin_function_hook : Nat
  end_function_hook : Nat
  begin_block_hook : Nat
  end_block_hook : Nat
  begin_loop_hook : Nat
  end_loop_hook : Nat
  begin_if_hook : Nat
  end_if_hook : Nat
  begin_else_hook : Nat
  end_else_hook : Nat
  nop_hook : Nat
  unreachable_hook : Nat
  current_memory_hook : Nat
  grow_memory_hook : Nat
  polymorphic : String → List ValType → Option Nat
  monomorphic : String → Option Nat
  call_result : List ValType → Option Nat

/-- The per-function mutable state threaded through the instrumentation
loop: the function's explicit locals (grown by fresh-local allocation), the
block stack (top first), the abstract type stack, and the module-level
`br_tables` accumulator of `ModuleInfo`. -/
structure FuncState where
  locals : List ValType
  blockStack : List Begin
  typeStack : TypeStack
  brTables : List BrTableInfo
deriving DecidableEq, Repr

/-- The body of the per-instruction `match` in `add_hooks` (lines 185-595
of `add_hooks.rs`): given the instruction at index `iidx` of function
`fidx`, produce the instructions appended to `instrumented_body` and the
updated state. `globals` are the global types and `funcTypes` the function
types of `ModuleInfo`; `params`/`results` are the current function's type.
Any Rust panic (stack underflow, bad nesting, missing hook, out-of-bounds
index) yields `none`. -/
def instrStep (hooks : Hooks) (globals : List ValType) (funcTypes : List FunctionType)
    (params results : List ValType) (fidx iidx : Nat) (instr : Instr) (s : FuncState) :
    Option (List Instr × FuncState) :=
  let loc0 : Instr := .I32Const (usizeToI32 fidx)
  let loc1 : Instr := .I32Const (usizeToI32 iidx)
  match instr with
  | .Nop =>
    some ([.Nop, loc0, loc1, .Call hooks.nop_hook], s)
  | .Unreachable =>
    some ([.Unreachable, loc0, loc1, .Call hooks.unreachable_hook], s)
  | .Block ty =>
    some ([.Block ty, loc0, loc1, .Call hooks.begin_block_hook],
      { s with blockStack := .Block iidx :: s.blockStack,
               typeStack := s.typeStack.beginBlock ty })
  | .Loop ty =>
    -- NOTE the source emits `begin_block_hook` for loops as well
    some ([.Loop ty, loc0, loc1, .Call hooks.begin_block_hook],
      { s with blockStack := .Loop iidx :: s.blockStack,
               typeStack := s.typeStack.beginBlock ty })
  | .If ty =>
    let a := addFreshLocal params s.locals I32
    some ([.TeeLocal a.1, loc0, loc1, .GetLocal a.1, .Call hooks.if_hook,
           .If ty, loc0, loc1, .Call hooks.begin_if_hook],
      { s with locals := a.2,
               blockStack := .If iidx :: s.blockStack,
               typeStack := s.typeStack.beginBlock ty })
  | .Else =>
    match s.blockStack with
    | .If begin_iidx :: rest =>
      match s.typeStack.endBlock with
      | none => none
      | some (block_ty, ts) =>
        some ([loc0, loc1, .I32Const (usizeToI32 begin_iidx), .Call hooks.end_else_hook,
               .Else, loc0, loc1, .Call hooks.begin_else_hook],
          { s with blockStack := .Else iidx :: rest,
                   typeStack := ts.beginBlock block_ty })
    | _ => none
  | .End =>
    match s.blockStack with
    | [] => none
    | begin_ :: rest =>
      let ts? : Option TypeStack :=
        if begin_ = .Function then some s.typeStack
        else (s.typeStack.endBlock).map fun p => p.2
      match ts? with
      | none => none
      | some ts =>
        let suffix : List Instr :=
          match begin_ with
          | .Function => [.Call hooks.end_function_hook]
          | .Block begin_iidx => [.I32Const (usizeToI32 begin_iidx), .Call hooks.end_block_hook]
          | .Loop begin_iidx => [.I32Const (usizeToI32 begin_iidx), .Call hooks.end_loop_hook]
          | .If begin_iidx => [.I32Const (usizeToI32 begin_iidx), .Call hooks.end_if_hook]
          | .Else begin_iidx => [.I32Const (usizeToI32 begin_iidx), .Call hooks.end_else_hook]
        some ([loc0, loc1] ++ suffix ++ [.End],
          { s with blockStack := rest, typeStack := ts })
  | .Drop =>
    match s.typeStack.pop with
    | none => none
    | some (ty, ts) =>
      let a := addFreshLocal params s.locals ty
      match hooks.polymorphic "drop" [ty] with
      | none => none
      | some h =>
        some ([.SetLocal a.1, loc0, loc1] ++ convert_i64_instr (.GetLocal a.1) ty ++ [.Call h],
          { s with locals := a.2, typeStack := ts })
  | .Select =>
    match s.typeStack.pop with
    | some (c, ts1) =>
      if c = I32 then
        match ts1.pop with
        | some (ty, ts2) =>
          match ts2.pop with
          | some (ty', ts3) =>
            if ty' = ty then
              let ts4 := ts3.push ty
              let ac := addFreshLocal params s.locals I32
              let a0 := addFreshLocal params ac.2 ty
              let a1 := addFreshLocal params a0.2 ty
              match hooks.polymorphic "select" [ty, ty] with
              | none => none
              | some h =>
                some (save_stack_to_locals [a0.1, a1.1, ac.1]
                    ++ [.Select, loc0, loc1, .GetLocal ac.1]
                    ++ restore_locals_with_i64_handling [a0.1, a1.1] [ty, ty]
                    ++ [.Call h],
                  { s with locals := a1.2, typeStack := ts4 })
            else none
          | none => none
        | none => none
      else none
    | none => none
  | .CurrentMemory =>
    match s.typeStack.op [] [I32] with
    | none => none
    | some ts =>
      let a := addFreshLocal params s.locals I32
      some ([.CurrentMemory, .TeeLocal a.1, loc0, loc1, .GetLocal a.1,
             .Call hooks.current_memory_hook],
        { s with locals := a.2, typeStack := ts })
  | .GrowMemory =>
    match s.typeStack.op [I32] [I32] with
    | none => none
    | some ts =>
      let ai := addFreshLocal params s.locals I32
      let ar := addFreshLocal params ai.2 I32
      some ([.TeeLocal ai.1, .GrowMemory, .TeeLocal ar.1, loc0, loc1,
             .GetLocal ai.1, .GetLocal ar.1, .Call hooks.grow_memory_hook],
        { s with locals := ar.2, typeStack := ts })
  | .GetLocal local_idx =>
    match localType params s.locals local_idx with
    | none => none
    | some local_ty =>
      match s.typeStack.op [] [local_ty] with
      | none => none
      | some ts =>
        match hooks.polymorphic "get_local" [local_ty] with
        | none => none
        | some h =>
          some ([.GetLocal local_idx, loc0, loc1, .I32Const (usizeToI32 local_idx)]
              ++ convert_i64_instr (.GetLocal local_idx) local_ty ++ [.Call h],
            { s with typeStack := ts })
  | .SetLocal local_idx =>
    match localType params s.locals local_idx with
    | none => none
    | some local_ty =>
      match s.typeStack.op [local_ty] [] with
      | none => none
      | some ts =>
        match hooks.polymorphic "set_local" [local_ty] with
        | none => none
        | some h =>
          some ([.SetLocal local_idx, loc0, loc1, .I32Const (usizeToI32 local_idx)]
              ++ convert_i64_instr (.GetLocal local_idx) local_ty ++ [.Call h],
            { s with typeStack := ts })
  | .TeeLocal local_idx =>
    match localType params s.locals local_idx with
    | none => none
    | some local_ty =>
      match hooks.polymorphic "tee_local" [local_ty] with
      | none => none
      | some h =>
        some ([.TeeLocal local_idx, loc0, loc1, .I32Const (usizeToI32 local_idx)]
            ++ convert_i64_instr (.GetLocal local_idx) local_ty ++ [.Call h], s)
  | .GetGlobal global_idx =>
    match globals.get? global_idx with
    | none => none
    | some global_ty =>
      match s.typeStack.op [] [global_ty] with
      | none => none
      | some ts =>
        match hooks.polymorphic "get_global" [global_ty] with
        | none => none
        | some h =>
          some ([.GetGlobal global_idx, loc0, loc1, .I32Const (usizeToI32 global_idx)]
              ++ convert_i64_instr (.GetGlobal global_idx) global_ty ++ [.Call h],
            { s with typeStack := ts })
  | .SetGlobal global_idx =>
    match globals.get? global_idx with
    | none => none
    | some global_ty =>
      match s.typeStack.op [global_ty] [] with
      | none => none
      | some ts =>
        match hooks.polymorphic "set_global" [global_ty] with
        | none => none
        | some h =>
          some ([.SetGlobal global_idx, loc0, loc1, .I32Const (usizeToI32 global_idx)]
              ++ convert_i64_instr (.GetGlobal global_idx) global_ty ++ [.Call h],
            { s with typeStack := ts })
  | .Return =>
    let result_tys := results
    let a := addFreshLocals params s.locals result_tys
    match hooks.polymorphic "return" result_tys with
    | none => none
    | some h =>
      some (save_stack_to_locals a.1 ++ [loc0, loc1]
          ++ restore_locals_with_i64_handling a.1 result_tys
          ++ [.Call h, .Return],
        { s with locals := a.2 })
  | .Call target_func_idx =>
    match funcTypes.get? target_func_idx with
    | none => none
    | some func_ty =>
      match s.typeStack.op func_ty.params func_ty.results with
      | none => none
      | some ts =>
        let aa := addFreshLocals params s.locals func_ty.params
        let ar := addFreshLocals params aa.2 func_ty.results
        match hooks.polymorphic "call" func_ty.params with
        | none => none
        | some hpre =>
          match hooks.call_result func_ty.results with
          | none => none
          | some hpost =>
            some (save_stack_to_locals aa.1
                ++ [loc0, loc1, .I32Const (usizeToI32 target_func_idx)]
                ++ restore_locals_with_i64_handling aa.1 func_ty.params
                ++ [.Call hpre, .Call target_func_idx]
                ++ save_stack_to_locals ar.1 ++ [loc0, loc1]
                ++ restore_locals_with_i64_handling ar.1 func_ty.results
                ++ [.Call hpost],
              { s with locals := ar.2, typeStack := ts })
  | .CallIndirect func_ty =>
    match s.typeStack.op func_ty.params func_ty.results with
    | none => none
    | some ts =>
      let at_ := addFreshLocal params s.locals I32
      let aa := addFreshLocals params at_.2 func_ty.params
      let ar := addFreshLocals params aa.2 func_ty.results
      match hooks.polymorphic "call_indirect" func_ty.params with
      | none => none
      | some hpre =>
        match hooks.call_result func_ty.results with
        | none => none
        | some hpost =>
          some ([.SetLocal at_.1]
              ++ save_stack_to_locals aa.1
              ++ [.GetLocal at_.1, loc0, loc1, .GetLocal at_.1]
              ++ restore_locals_with_i64_handling aa.1 func_ty.params
              ++ [.Call hpre, .CallIndirect func_ty]
              ++ save_stack_to_locals ar.1 ++ [loc0, loc1]
              ++ restore_locals_with_i64_handling ar.1 func_ty.results
              ++ [.Call hpost],
            { s with locals := ar.2, typeStack := ts })
  | .I32Const v =>
    match s.typeStack.op [] [I32] with
    | none => none
    | some ts =>
      match hooks.monomorphic "i32.const" with
      | none => none
      | some h =>
        some ([loc0, loc1] ++ convert_i64_instr (.I32Const v) I32 ++ [.Call h, .I32Const v],
          { s with typeStack := ts })
  | .I64Const v =>
    match s.typeStack.op [] [I64] with
    | none => none
    | some ts =>
      match hooks.monomorphic "i64.const" with
      | none => none
      | some h =>
        some ([loc0, loc1] ++ convert_i64_instr (.I64Const v) I64 ++ [.Call h, .I64Const v],
          { s with typeStack := ts })
  | .F32Const bits =>
    match s.typeStack.op [] [F32] with
    | none => none
    | some ts =>
      match hooks.monomorphic "f32.const" with
      | none => none
      | some h =>
        some ([loc0, loc1] ++ convert_i64_instr (.F32Const bits) F32 ++ [.Call h, .F32Const bits],
          { s with typeStack := ts })
  | .F64Const bits =>
    match s.typeStack.op [] [F64] with
    | none => none
    | some ts =>
      match hooks.monomorphic "f64.const" with
      | none => none
      | some h =>
        some ([loc0, loc1] ++ convert_i64_instr (.F64Const bits) F64 ++ [.Call h, .F64Const bits],
          { s with typeStack := ts })
  | .Unary opname input_ty result_ty =>
    match s.typeStack.op [input_ty] [result_ty] with
    | none => none
    | some ts =>
      let ai := addFreshLocal params s.locals input_ty
      let ar := addFreshLocal params ai.2 result_ty
      match hooks.monomorphic opname with
      | none => none
      | some h =>
        some ([.TeeLocal ai.1, .Unary opname input_ty result_ty, .TeeLocal ar.1, loc0, loc1]
            ++ restore_locals_with_i64_handling [ai.1, ar.1] [input_ty, result_ty]
            ++ [.Call h],
          { s with locals := ar.2, typeStack := ts })
  | .Binary opname first_ty second_ty result_ty =>
    match s.typeStack.op [first_ty, second_ty] [result_ty] with
    | none => none
    | some ts =>
      let a1 := addFreshLocal params s.locals first_ty
      let a2 := addFreshLocal params a1.2 second_ty
      let ar := addFreshLocal params a2.2 result_ty
      match hooks.monomorphic opname with
      | none => none
      | some h =>
        some (save_stack_to_locals [a1.1, a2.1]
            ++ [.Binary opname first_ty second_ty result_ty, .TeeLocal ar.1, loc0, loc1]
            ++ restore_locals_with_i64_handling [a1.1, a2.1, ar.1] [first_ty, second_ty, result_ty]
            ++ [.Call h],
          { s with locals := ar.2, typeStack := ts })
  | .MemoryLoad opname ty memarg =>
    match s.typeStack.op [I32] [ty] with
    | none => none
    | some ts =>
      let aa := addFreshLocal params s.locals I32
      let av := addFreshLocal params aa.2 ty
      match hooks.monomorphic opname with
      | none => none
      | some h =>
        some ([.TeeLocal aa.1, .MemoryLoad opname ty memarg, .TeeLocal av.1, loc0, loc1,
               .I32Const (usizeToI32 memarg.offset), .I32Const (usizeToI32 memarg.alignment)]
            ++ restore_locals_with_i64_handling [aa.1, av.1] [I32, ty]
            ++ [.Call h],
          { s with locals := av.2, typeStack := ts })
  | .MemoryStore opname ty memarg =>
    match s.typeStack.op [I32, ty] [] with
    | none => none
    | some ts =>
      let aa := addFreshLocal params s.locals I32
      let av := addFreshLocal params aa.2 ty
      match hooks.monomorphic opname with
      | none => none
      | some h =>
        some (save_stack_to_locals [aa.1, av.1]
            ++ [.MemoryStore opname ty memarg, loc0, loc1,
                .I32Const (usizeToI32 memarg.offset), .I32Const (usizeToI32 memarg.alignment)]
            ++ restore_locals_with_i64_handling [aa.1, av.1] [I32, ty]
            ++ [.Call h],
          { s with locals := av.2, typeStack := ts })
  | .Br target_label =>
    match label_to_instr_idx s.blockStack target_label with
    | none => none
    | some target =>
      some ([loc0, loc1, .I32Const (usizeToI32 target_label), .I32Const (usizeToI32 target),
             .Call hooks.br_hook, .Br target_label], s)
  | .BrIf target_label =>
    match s.typeStack.op [I32] [] with
    | none => none
    | some ts =>
      match label_to_instr_idx s.blockStack target_label with
      | none => none
      | some target =>
        let ac := addFreshLocal params s.locals I32
        some ([.TeeLocal ac.1, loc0, loc1, .I32Const (usizeToI32 target_label),
               .I32Const (usizeToI32 target), .GetLocal ac.1, .Call hooks.br_if_hook,
               .BrIf target_label],
          { s with locals := ac.2, typeStack := ts })
  | .BrTable target_table default_target =>
    match s.typeStack.op [I32] [] with
    | none => none
    | some ts =>
      let brTables' := s.brTables ++ [⟨target_table, default_target⟩]
      let ai := addFreshLocal params s.locals I32
      some ([.TeeLocal ai.1, loc0, loc1, .I32Const (usizeToI32 (brTables'.length - 1)),
             .GetLocal ai.1, .Call hooks.br_table_hook, .BrTable target_table default_target],
        { s with locals := ai.2, typeStack := ts, brTables := brTables' })

/-- The instrumentation loop of `add_hooks` over the original body,
numbering instructions from `iidx` and concatenating the emitted chunks. -/
def instrumentInstrs (hooks : Hooks) (globals : List ValType) (funcTypes : List FunctionType)
    (params results : List ValType) (fidx : Nat) :
    Nat → List Instr → FuncState → Option (List Instr × FuncState)
  | _, [], s => some ([], s)
  | iidx, instr :: rest, s =>
    match instrStep hooks globals funcTypes params results fidx iidx instr s with
    | none => none
    | some (chunk, s') =>
      match instrumentInstrs hooks globals funcTypes params results fidx (iidx + 1) rest s' with
      | none => none
      | some (out, s'') => some (chunk ++ out, s'')

/-- Instrumentation of one non-imported function (`add_hooks` lines
158-601): the `begin_function` prologue with instruction index -1, then the
per-instruction loop starting from block stack `[Function]` and an empty
type stack; finally the source asserts the block stack is empty. -/
def instrumentFunction (hooks : Hooks) (globals : List ValType) (funcTypes : List FunctionType)
    (fidx : Nat) (params results locals : List ValType) (brTables0 : List BrTableInfo)
    (body : List Instr) : Option (List Instr × FuncState) :=
  let s0 : FuncState := ⟨locals, [.Function], [], brTables0⟩
  let prologue : List Instr :=
    [.I32Const (usizeToI32 fidx), .I32Const (-1), .Call hooks.begin_function_hook]
  match instrumentInstrs hooks globals funcTypes params results fidx 0 body s0 with
  | none => none
  | some (out, s') =>
    if s'.blockStack = [] then some (prologue ++ out, s') else none

/-- The `primitive_tys` slice of `add_hooks` (line 45). -/
def primitive_tys : List (List ValType) := [[I32], [I64], [F32], [F64]]

/-- The type pairs passed for `select` (line 54). -/
def select_tys : List (List ValType) := [[I32, I32], [I64, I64], [F32, F32], [F64, F64]]

/-- The `PolymorphicHookMap::add` registration: one hook import per type vector, named by
`append_mangled_tys`, with the non-polymorphic arguments first. -/
def polymorphicHookAdd (instr_name : String) (non_poly_args : List ValType)
    (tys : List (List ValType)) : List HookImport :=
  tys.map fun t => add_hook (append_mangled_tys instr_name t) (non_poly_args ++ t)

/-- The constant part of the monomorphic instruction array of `add_hooks`
(lines 97-100). -/
def monomorphicConstInstrs : List Instr := [
  .I32Const 0,
  .I64Const 0,
  .F32Const 0,
  .F64Const 0]

/-- The unary part of the monomorphic instruction array of `add_hooks`
(lines 103-123). -/
def monomorphicUnaryInstrs : List Instr := [
  .Unary "i32.eqz" I32 I32, .Unary "i64.eqz" I64 I32,
  .Unary "i32.clz" I32 I32, .Unary "i32.ctz" I32 I32, .Unary "i32.popcnt" I32 I32,
  .Unary "i64.clz" I64 I64, .Unary "i64.ctz" I64 I64, .Unary "i64.popcnt" I64 I64,
  .Unary "f32.abs" F32 F32, .Unary "f32.neg" F32 F32, .Unary "f32.ceil" F32 F32,
  .Unary "f32.floor" F32 F32, .Unary "f32.trunc" F32 F32, .Unary "f32.nearest" F32 F32,
  .Unary "f32.sqrt" F32 F32,
  .Unary "f64.abs" F64 F64, .Unary "f64.neg" F64 F64, .Unary "f64.ceil" F64 F64,
  .Unary "f64.floor" F64 F64, .Unary "f64.trunc" F64 F64, .Unary "f64.nearest" F64 F64,
  .Unary "f64.sqrt" F64 F64,
  .Unary "i32.wrap_i64" I64 I32,
  .Unary "i32.trunc_s_f32" F32 I32, .Unary "i32.trunc_u_f32" F32 I32,
  .Unary "i32.trunc_s_f64" F64 I32, .Unary "i32.trunc_u_f64" F64 I32,
  .Unary "i64.extend_s_i32" I32 I64, .Unary "i64.extend_u_i32" I32 I64,
  .Unary "i64.trunc_s_f32" F32 I64, .Unary "i64.trunc_u_f32" F32 I64,
  .Unary "i64.trunc_s_f64" F64 I64, .Unary "i64.trunc_u_f64" F64 I64,
  .Unary "f32.convert_s_i32" I32 F32, .Unary "f32.convert_u_i32" I32 F32,
  .Unary "f32.convert_s_i64" I64 F32, .Unary "f32.convert_u_i64" I64 F32,
  .Unary "f32.demote_f64" F64 F32,
  .Unary "f64.convert_s_i32" I32 F64, .Unary "f64.convert_u_i32" I32 F64,
  .Unary "f64.convert_s_i64" I64 F64, .Unary "f64.convert_u_i64" I64 F64,
  .Unary "f64.promote_f32" F32 F64,
  .Unary "i32.reinterpret_f32" F32 I32,
  .Unary "i64.reinterpret_f64" F64 I64,
  .Unary "f32.reinterpret_i32" I32 F32,
  .Unary "f64.reinterpret_i64" I64 F64]

set_option maxHeartbeats 2000000 in
/-- The binary part of the monomorphic instruction array of `add_hooks`
(lines 126-133). -/
def monomorphicBinaryInstrs : List Instr := [
  .Binary "i32.eq" I32 I32 I32, .Binary "i32.ne" I32 I32 I32,
  .Binary "i32.lt_s" I32 I32 I32, .Binary "i32.lt_u" I32 I32 I32,
  .Binary "i32.gt_s" I32 I32 I32, .Binary "i32.gt_u" I32 I32 I32,
  .Binary "i32.le_s" I32 I32 I32, .Binary "i32.le_u" I32 I32 I32,
  .Binary "i32.ge_s" I32 I32 I32, .Binary "i32.ge_u" I32 I32 I32,
  .Binary "i64.eq" I64 I64 I32, .Binary "i64.ne" I64 I64 I32,
  .Binary "i64.lt_s" I64 I64 I32, .Binary "i64.lt_u" I64 I64 I32,
  .Binary "i64.gt_s" I64 I64 I32, .Binary "i64.gt_u" I64 I64 I32,
  .Binary "i64.le_s" I64 I64 I32, .Binary "i64.le_u" I64 I64 I32,
  .Binary "i64.ge_s" I64 I64 I32, .Binary "i64.ge_u" I64 I64 I32,
  .Binary "f32.eq" F32 F32 I32, .Binary "f32.ne" F32 F32 I32,
  .Binary "f32.lt" F32 F32 I32, .Binary "f32.gt" F32 F32 I32,
  .Binary "f32.le" F32 F32 I32, .Binary "f32.ge" F32 F32 I32,
  .Binary "f64.eq" F64 F64 I32, .Binary "f64.ne" F64 F64 I32,
  .Binary "f64.lt" F64 F64 I32, .Binary "f64.gt" F64 F64 I32,
  .Binary "f64.le" F64 F64 I32, .Binary "f64.ge" F64 F64 I32,
  .Binary "i32.add" I32 I32 I32, .Binary "i32.sub" I32 I32 I32,
  .Binary "i32.mul" I32 I32 I32, .Binary "i32.div_s" I32 I32 I32,
  .Binary "i32.div_u" I32 I32 I32, .Binary "i32.rem_s" I32 I32 I32,
  .Binary "i32.rem_u" I32 I32 I32, .Binary "i32.and" I32 I32 I32,
  .Binary "i32.or" I32 I32 I32, .Binary "i32.xor" I32 I32 I32,
  .Binary "i32.shl" I32 I32 I32, .Binary "i32.shr_s" I32 I32 I32,
  .Binary "i32.shr_u" I32 I32 I32, .Binary "i32.rotl" I32 I32 I32,
  .Binary "i32.rotr" I32 I32 I32,
  .Binary "i64.add" I64 I64 I64, .Binary "i64.sub" I64 I64 I64,
  .Binary "i64.mul" I64 I64 I64, .Binary "i64.div_s" I64 I64 I64,
  .Binary "i64.div_u" I64 I64 I64, .Binary "i64.rem_s" I64 I64 I64,
  .Binary "i64.rem_u" I64 I64 I64, .Binary "i64.and" I64 I64 I64,
  .Binary "i64.or" I64 I64 I64, .Binary "i64.xor" I64 I64 I64,
  .Binary "i64.shl" I64 I64 I64, .Binary "i64.shr_s" I64 I64 I64,
  .Binary "i64.shr_u" I64 I64 I64, .Binary "i64.rotl" I64 I64 I64,
  .Binary "i64.rotr" I64 I64 I64,
  .Binary "f32.add" F32 F32 F32, .Binary "f32.sub" F32 F32 F32,
  .Binary "f32.mul" F32 F32 F32, .Binary "f32.div" F32 F32 F32,
  .Binary "f32.min" F32 F32 F32, .Binary "f32.max" F32 F32 F32,
  .Binary "f32.copysign" F32 F32 F32,
  .Binary "f64.add" F64 F64 F64, .Binary "f64.sub" F64 F64 F64,
  .Binary "f64.mul" F64 F64 F64, .Binary "f64.div" F64 F64 F64,
  .Binary "f64.min" F64 F64 F64, .Binary "f64.max" F64 F64 F64,
  .Binary "f64.copysign" F64 F64 F64]

/-- The memory part of the monomorphic instruction array of `add_hooks`
(lines 136-143). -/
def monomorphicMemoryInstrs : List Instr := [
  .MemoryLoad "i32.load" I32 Memarg.default, .MemoryLoad "i32.load8_s" I32 Memarg.default,
  .MemoryLoad "i32.load8_u" I32 Memarg.default, .MemoryLoad "i32.load16_s" I32 Memarg.default,
  .MemoryLoad "i32.load16_u" I32 Memarg.default,
  .MemoryLoad "i64.load" I64 Memarg.default, .MemoryLoad "i64.load8_s" I64 Memarg.default,
  .MemoryLoad "i64.load8_u" I64 Memarg.default, .MemoryLoad "i64.load16_s" I64 Memarg.default,
  .MemoryLoad "i64.load16_u" I64 Memarg.default, .MemoryLoad "i64.load32_s" I64 Memarg.default,
  .MemoryLoad "i64.load32_u" I64 Memarg.default,
  .MemoryLoad "f32.load" F32 Memarg.default,
  .MemoryLoad "f64.load" F64 Memarg.default,
  .MemoryStore "i32.store" I32 Memarg.default, .MemoryStore "i32.store8" I32 Memarg.default,
  .MemoryStore "i32.store16" I32 Memarg.default,
  .MemoryStore "i64.store" I64 Memarg.default, .MemoryStore "i64.store8" I64 Memarg.default,
  .MemoryStore "i64.store16" I64 Memarg.default, .MemoryStore "i64.store32" I64 Memarg.default,
  .MemoryStore "f32.store" F32 Memarg.default,
  .MemoryStore "f64.store" F64 Memarg.default]

/-- The full monomorphic instruction array of `add_hooks` (lines 96-144),
in source order. -/
def monomorphicInstrs : List Instr :=
  monomorphicConstInstrs ++ monomorphicUnaryInstrs
    ++ monomorphicBinaryInstrs ++ monomorphicMemoryInstrs

/-- The hook argument types chosen by `add_hook_from_instr` from the
instruction's group (`Const`, `Unary`, `Binary`, `MemoryLoad` with three
leading I32 for address/offset/alignment, `MemoryStore` likewise). -/
def hookArgTys : Instr → List ValType
  | .I32Const _ => [I32]
  | .I64Const _ => [I64]
  | .F32Const _ => [F32]
  | .F64Const _ => [F64]
  | .Unary _ input_ty result_ty => [input_ty, result_ty]
  | .Binary _ first_ty second_ty result_ty => [first_ty, second_ty, result_ty]
  | .MemoryLoad _ ty _ => [I32, I32, I32, ty]
  | .MemoryStore _ ty _ => [I32, I32, I32, ty]
  | _ => []

/-- The eighteen monomorphic control/branch/begin/end/memory hooks added in
`add_hooks` (lines 69-92), in source order. -/
def controlHooks : List HookImport :=
  [add_hook "if_" [I32],
   add_hook "br" [I32, I32],
   add_hook "br_if" [I32, I32, I32],
   add_hook "br_table" [I32, I32],
   add_hook "begin_function" [],
   add_hook "end_function" [],
   add_hook "begin_block" [],
   add_hook "end_block" [I32],
   add_hook "begin_loop" [],
   add_hook "end_loop" [I32],
   add_hook "begin_if" [],
   add_hook "end_if" [I32],
   add_hook "begin_else" [],
   add_hook "end_else" [I32],
   add_hook "nop" [],
   add_hook "unreachable" [],
   add_hook "current_memory" [I32],
   add_hook "grow_memory" [I32, I32]]

/-- All hook function imports added by `add_hooks` (lines 26-153), in
source order, as a function of the deduplicated result-type vectors `R`
(`unique_result_tys`) and parameter-type vectors `A` (`unique_arg_tys`) of
the module's functions; every other registration is a fixed enumeration. -/
def registeredHooks (R A : List (List ValType)) : List HookImport :=
  polymorphicHookAdd "return" [] R
    ++ polymorphicHookAdd "get_local" [I32] primitive_tys
    ++ polymorphicHookAdd "set_local" [I32] primitive_tys
    ++ polymorphicHookAdd "tee_local" [I32] primitive_tys
    ++ polymorphicHookAdd "get_global" [I32] primitive_tys
    ++ polymorphicHookAdd "set_global" [I32] primitive_tys
    ++ polymorphicHookAdd "drop" [] primitive_tys
    ++ polymorphicHookAdd "select" [I32] select_tys
    ++ polymorphicHookAdd "call" [I32] A
    ++ polymorphicHookAdd "call_indirect" [I32] A
    ++ R.map (fun tys => add_hook (append_mangled_tys "call_result" tys) tys)
    ++ controlHooks
    ++ monomorphicInstrs.map (fun i => add_hook i.toInstrName (hookArgTys i))

/-- Lexicographic comparison realising the derived Rust `Ord` on
`Vec<ValType>` (element order first, then length). -/
def tysLe : List ValType → List ValType → Bool
  | [], _ => true
  | _ :: _, [] => false
  | a :: as_, b :: bs =>
    if a.rank < b.rank then true
    else if b.rank < a.rank then false
    else tysLe as_ bs

/-- Insertion step of the stable sort used to model `Vec::sort`. -/
def insertSorted (x : List ValType) : List (List ValType) → List (List ValType)
  | [] => [x]
  | y :: rest => if tysLe x y then x :: y :: rest else y :: insertSorted x rest

/-- Model of `Vec::sort` on type vectors (insertion sort, ascending). -/
def sortTys : List (List ValType) → List (List ValType)
  | [] => []
  | x :: rest => insertSorted x (sortTys rest)

/-- Model of `Vec::dedup`: removes consecutive duplicates. -/
def dedupConsec : List (List ValType) → List (List ValType)
  | [] => []
  | [x] => [x]
  | x :: y :: rest => if x = y then dedupConsec (y :: rest) else x :: dedupConsec (y :: rest)

/-- Rust `sort` followed by `dedup`, as applied to `unique_result_tys` and
`unique_arg_tys` in `add_hooks` (lines 33-39). -/
def uniqueTys (tys : List (List ValType)) : List (List ValType) :=
  dedupConsec (sortTys tys)

/-- A module function: its type and, for non-imported functions, the
explicit locals and the body. -/
structure ModuleFunc where
  type_ : FunctionType
  locals : List ValType
  body : Option (List Instr)
deriving DecidableEq, Repr

/-- The slice of the high-level module that `add_hooks` reads (named
`Module` in the source; renamed here to avoid the Mathlib algebraic
`Module`). -/
structure WasmModule where
  functions : List ModuleFunc
  globals : List ValType
deriving DecidableEq, Repr

/-- The number of hook function imports `add_hooks` adds for a module. -/
def numHookImports (m : WasmModule) : Nat :=
  (registeredHooks (uniqueTys (m.functions.map fun f => f.type_.results))
    (uniqueTys (m.functions.map fun f => f.type_.params))).length

/-- The distinct opcode mnemonics occurring in the module's function
bodies (the "(opcode [, type vector]) pairs actually observed"; none of
the instructions of the modules we evaluate this on is polymorphic, so the
mnemonic alone identifies the pair). -/
def observedInstrKinds (m : WasmModule) : List String :=
  ((m.functions.flatMap fun f => (f.body.getD []).map Instr.toInstrName)).dedup

/-- The property names of the fixed part of the
`Wasabi.module.lowlevelHooks` object literal in `js_codegen.rs` (lines
19-88), in source order. -/
def staticLowlevelProps : List String :=
  ["start", "nop", "unreachable", "memory_size", "memory_grow",
   "begin_function", "end_function", "begin_block", "end_block",
   "begin_loop", "end_loop", "begin_if", "end_if", "begin_else", "end_else",
   "if_", "br", "br_if", "br_table"]

/-- The property names contributed by the `on_demand_hooks` strings, in
push order: each polymorphic registration pushes `to_poly_js_hook` (for
`Return` that string holds two properties, the `return_<tys>` one and the
`call_post_<tys>` one obtained by the textual `replace("return",
"call_post")` in `js_codegen.rs` lines 152-158), and each monomorphic
registration pushes `to_js_hook`, whose property name is the mnemonic. -/
def onDemandProps (R A : List (List ValType)) : List String :=
  (R.flatMap fun tys =>
    [append_mangled_tys "return" tys, append_mangled_tys "call_post" tys])
    ++ primitive_tys.map (append_mangled_tys "get_local")
    ++ primitive_tys.map (append_mangled_tys "set_local")
    ++ primitive_tys.map (append_mangled_tys "tee_local")
    ++ primitive_tys.map (append_mangled_tys "get_global")
    ++ primitive_tys.map (append_mangled_tys "set_global")
    ++ primitive_tys.map (append_mangled_tys "drop")
    ++ select_tys.map (append_mangled_tys "select")
    ++ A.map (append_mangled_tys "call")
    ++ A.map (append_mangled_tys "call_indirect")
    ++ monomorphicInstrs.map Instr.toInstrName

/-- All property names of `Wasabi.module.lowlevelHooks`: the fixed block
followed by the generated on-demand hooks. -/
def lowlevelHookProps (R A : List (List ValType)) : List String :=
  staticLowlevelProps ++ onDemandProps R A

/-- A table of the module: its limits and optional export name (the
`export` field of the high-level `Table`; `export` is a Lean keyword, hence
the trailing underscore). -/
structure Table where
  limits : Nat × Option Nat
  export_ : Option String
deriving DecidableEq, Repr

/-- The table-export loop at the start of `add_hooks` (lines 14-18): a
table without a declared export is exported as "table". -/
def exportTables (tables : List Table) : List Table :=
  tables.map fun t =>
    match t.export_ with
    | none => { t with export_ := some "table" }
    | some _ => t

/-!
A small operational semantics for the emitted instruction sequences, used
to state the stack-identity of `save_stack_to_locals` and the i64
split/reassembly round trip. Runtime values are raw bit patterns (`Nat`);
the locals are a total store. Only the instructions these claims execute
are given a meaning; everything else is `none`.
-/

/-- Runtime state: the value stack (top first) and the local store. -/
structure ExecState where
  stack : List Nat
  locals : Nat → Nat

/-- Pointwise update of a local store. -/
def updLocal (f : Nat → Nat) (l v : Nat) : Nat → Nat :=
  fun x => if x = l then v else f x

/-- One-step semantics of the instructions the claims execute:
`set_local`/`tee_local`/`get_local`, `i64.const`, `i32.wrap/i64` (keep the
low 32 bits) and `i64.shr_u` (logical right shift, shift amount mod 64). -/
def execInstr : Instr → ExecState → Option ExecState
  | .SetLocal l, ⟨v :: st, f⟩ => some ⟨st, updLocal f l v⟩
  | .TeeLocal l, ⟨v :: st, f⟩ => some ⟨v :: st, updLocal f l v⟩
  | .GetLocal l, ⟨st, f⟩ => some ⟨f l :: st, f⟩
  | .I64Const v, ⟨st, f⟩ => some ⟨((v % 2 ^ 64).toNat) :: st, f⟩
  | .Unary op _ _, ⟨v :: st, f⟩ =>
    if op = "i32.wrap_i64" then some ⟨v % 2 ^ 32 :: st, f⟩ else none
  | .Binary op _ _ _, ⟨k :: v :: st, f⟩ =>
    if op = "i64.shr_u" then some ⟨v / 2 ^ (k % 64) :: st, f⟩ else none
  | _, _ => none

/-- Execution of an instruction sequence, left to right. -/
def execList : List Instr → ExecState → Option ExecState
  | [], σ => some σ
  | instr :: rest, σ =>
    match execInstr instr σ with
    | none => none
    | some σ' => execList rest σ'

/-- Modelled from the spec: the JavaScript shim reassembles a split i64 as
`new Long(low, high)` (long.js), whose bit pattern is the concatenation of
the unsigned 32-bit low and high halves. -/
def jsLong (low high : Nat) : Nat := low + 2 ^ 32 * high

/-- One `_<ty>` segment per type of a vector: the name shape the spec
ascribes to polymorphic hook names. -/
def mangledSegments : List ValType → String
  | [] => ""
  | t :: rest => "_" ++ t.toString ++ mangledSegments rest

/-!  ## Theorems  -/

lemma convert_i64_type_eq (t : ValType) :
    convert_i64_type t = if t = I64 then [I32, I32] else [t] := by
  cases t <;> rfl

/-- C8: every hook added by `add_hook` is an import from module "hooks"
with no results, whose parameters are the two I32 location parameters
followed by the declared argument types with each i64 expanded to two
i32s. -/
theorem add_hook_import_shape (name : String) (args : List ValType) :
    (add_hook name args).module_ = "hooks" ∧
    (add_hook name args).type_.results = [] ∧
    (add_hook name args).type_.params
      = I32 :: I32 :: args.flatMap fun t => if t = I64 then [I32, I32] else [t] := by
  refine ⟨rfl, rfl, ?_⟩
  have h : convert_i64_type = fun t : ValType => if t = I64 then [I32, I32] else [t] := by
    funext t
    exact convert_i64_type_eq t
  simp [add_hook, h]

/-- C9 counterexample: for the empty type vector the mangled hook name is
the mnemonic with a trailing underscore, not the bare mnemonic. -/
theorem append_mangled_tys_empty_not_bare :
    append_mangled_tys "return" [] = "return_" ∧
    append_mangled_tys "return" [] ≠ "return" := by
  constructor <;> decide

lemma underscore_join_eq_segments (t : ValType) (ts : List ValType) :
    "_" ++ joinUnderscore ((t :: ts).map ValType.toString) = mangledSegments (t :: ts) := by
  induction ts generalizing t with
  | nil => simp [joinUnderscore, mangledSegments]
  | cons y ys ih =>
    calc "_" ++ joinUnderscore ((t :: y :: ys).map ValType.toString)
        = "_" ++ (t.toString ++ "_" ++ joinUnderscore ((y :: ys).map ValType.toString)) := by
          simp [joinUnderscore]
      _ = "_" ++ t.toString ++ ("_" ++ joinUnderscore ((y :: ys).map ValType.toString)) := by
          simp [String.append_assoc]
      _ = mangledSegments (t :: y :: ys) := by
          rw [ih y]
          simp [mangledSegments, String.append_assoc]

lemma polyAdd_names (nm : String) (npa : List ValType) (tyss : List (List ValType)) :
    (polymorphicHookAdd nm npa tyss).map HookImport.name = tyss.map (append_mangled_tys nm) := by
  simp [polymorphicHookAdd, add_hook]

/-- C9 amended: every polymorphic hook registered over a type vector is
named by `append_mangled_tys`; over a nonempty vector that is the mnemonic
followed by one `_<ty>` segment per type, but over the empty vector it is
the mnemonic followed by a bare trailing underscore (not the bare
mnemonic). -/
theorem append_mangled_tys_shape :
    (∀ nm npa tyss, (polymorphicHookAdd nm npa tyss).map HookImport.name
        = tyss.map (append_mangled_tys nm)) ∧
    (∀ pre t ts, append_mangled_tys pre (t :: ts) = pre ++ mangledSegments (t :: ts)) ∧
    (∀ pre, append_mangled_tys pre [] = pre ++ "_") := by
  refine ⟨polyAdd_names, ?_, ?_⟩
  · intro pre t ts
    rw [append_mangled_tys, String.append_assoc, underscore_join_eq_segments]
  · intro pre
    simp [append_mangled_tys, joinUnderscore]

/-- C10: after the table loop of `add_hooks`, every table has an export; a
table with a declared export is kept unchanged, one without is exported
under the name "table". -/
theorem tables_all_exported (tables : List Table) :
    (∀ t ∈ exportTables tables, ∃ e, t.export_ = some e) ∧
    (∀ (i : Nat) (t : Table), tables[i]? = some t →
      (exportTables tables)[i]? =
        some (match t.export_ with
              | some _ => t
              | none => { t with export_ := some "table" })) := by
  constructor
  · intro t ht
    simp only [exportTables, List.mem_map] at ht
    obtain ⟨a, -, rfl⟩ := ht
    cases h : a.export_ with
    | none => exact ⟨"table", by simp [h]⟩
    | some e => exact ⟨e, by simp [h]⟩
  · intro i t ht
    cases h : t.export_ with
    | none => simp [exportTables, List.getElem?_map, ht, h]
    | some e => simp [exportTables, List.getElem?_map, ht, h]

/-- A minimal module: one function of type `[] -> []` whose body is the
single instruction `end`. -/
def exampleModule : WasmModule :=
  ⟨[⟨⟨[], []⟩, [], some [.End]⟩], []⟩

set_option maxRecDepth 10000 in
/-- C6 counterexample: on `exampleModule` the number of hook imports added
by `add_hooks` is 200, while the number of distinct observed opcodes plus
the full fixed set of monomorphic control/begin/end hooks is 19. -/
theorem hook_count_counterexample :
    numHookImports exampleModule = 200 ∧
    (observedInstrKinds exampleModule).length + controlHooks.length = 19 ∧
    numHookImports exampleModule ≠
      (observedInstrKinds exampleModule).length + controlHooks.length := by
  refine ⟨by decide, by decide, by decide⟩

/-- C6 amended: the number of hook imports is independent of which
instructions occur in the module: it is one per deduplicated function
result-type vector for `return` and again for `call_result`, one per
deduplicated parameter-type vector for `call` and again for
`call_indirect`, plus the fixed 196 hooks (twenty `local`/`global` hooks,
four `drop`, four `select`, eighteen control/begin/end hooks and the 150
monomorphic instruction hooks). -/
theorem registered_hook_count (R A : List (List ValType)) :
    (registeredHooks R A).length = 2 * R.length + 2 * A.length + 196 := by
  have hmono : (monomorphicInstrs.map fun i => add_hook i.toInstrName (hookArgTys i)).length
      = 150 := by
    rw [List.length_map]
    set_option maxRecDepth 10000 in decide
  have hctl : controlHooks.length = 18 := by decide
  simp only [registeredHooks, polymorphicHookAdd, List.length_append, List.length_map, hmono,
    hctl]
  have hp : primitive_tys.length = 4 := by decide
  have hs : select_tys.length = 4 := by decide
  rw [hp, hs]
  ring

set_option maxRecDepth 100000 in
/-- C5 counterexample: the hook registered under the import name
`current_memory` has no property of that name in
`Wasabi.module.lowlevelHooks` (its forwarder is named `memory_size`),
already for the minimal module (`R = A = [[]]`). -/
theorem lowlevel_props_counterexample :
    "current_memory" ∈ (registeredHooks [[]] [[]]).map HookImport.name ∧
    "current_memory" ∉ lowlevelHookProps [[]] [[]] := by
  refine ⟨by decide, by decide⟩

lemma mem_static_props (R A : List (List ValType)) (x : String)
    (hx : x ∈ staticLowlevelProps) : x ∈ lowlevelHookProps R A :=
  List.mem_append_left _ hx

lemma mem_onDemand_props (R A : List (List ValType)) {x : String}
    (hx : x ∈ onDemandProps R A) : x ∈ lowlevelHookProps R A :=
  List.mem_append_right _ hx

/-- C5 amended: every hook registered by `add_hooks` has a matching
property in `Wasabi.module.lowlevelHooks`, except that the hooks imported
as `current_memory` and `grow_memory` appear under the property names
`memory_size` and `memory_grow`, and the `call_result_<tys>` hooks appear
under `call_post_<tys>`; the object additionally contains a `start`
property that corresponds to no registered hook. -/
theorem lowlevel_props_amended (R A : List (List ValType)) :
    (∀ n : String, n ∈ (registeredHooks R A).map HookImport.name →
        n ≠ "current_memory" → n ≠ "grow_memory" →
        n ∉ R.map (append_mangled_tys "call_result") →
        n ∈ lowlevelHookProps R A) ∧
    "memory_size" ∈ lowlevelHookProps R A ∧
    "memory_grow" ∈ lowlevelHookProps R A ∧
    "start" ∈ lowlevelHookProps R A ∧
    (∀ tys ∈ R, append_mangled_tys "call_post" tys ∈ lowlevelHookProps R A) := by
  refine ⟨?_, mem_static_props R A _ (by decide), mem_static_props R A _ (by decide),
    mem_static_props R A _ (by decide), ?_⟩
  case refine_2 =>
    intro tys htys
    have hmem : append_mangled_tys "call_post" tys
        ∈ R.flatMap fun t => [append_mangled_tys "return" t, append_mangled_tys "call_post" t] :=
      List.mem_flatMap.mpr ⟨tys, htys, by simp⟩
    refine mem_onDemand_props R A ?_
    simp only [onDemandProps, List.mem_append]
    exact Or.inl (Or.inl (Or.inl (Or.inl (Or.inl (Or.inl (Or.inl (Or.inl (Or.inl
      (Or.inl hmem)))))))))
  intro n hn h1 h2 h3
  have hnames : (registeredHooks R A).map HookImport.name
      = R.map (append_mangled_tys "return")
        ++ primitive_tys.map (append_mangled_tys "get_local")
        ++ primitive_tys.map (append_mangled_tys "set_local")
        ++ primitive_tys.map (append_mangled_tys "tee_local")
        ++ primitive_tys.map (append_mangled_tys "get_global")
        ++ primitive_tys.map (append_mangled_tys "set_global")
        ++ primitive_tys.map (append_mangled_tys "drop")
        ++ select_tys.map (append_mangled_tys "select")
        ++ A.map (append_mangled_tys "call")
        ++ A.map (append_mangled_tys "call_indirect")
        ++ R.map (append_mangled_tys "call_result")
        ++ controlHooks.map HookImport.name
        ++ monomorphicInstrs.map Instr.toInstrName := by
    simp only [registeredHooks, List.map_append, polyAdd_names, List.map_map]
    simp [Function.comp_def, add_hook]
  rw [hnames] at hn
  simp only [List.mem_append] at hn
  rcases hn with (((((((((((hseg | hseg) | hseg) | hseg) | hseg) | hseg) | hseg) | hseg)
    | hseg) | hseg) | hseg) | hseg) | hseg
  · -- return hooks
    obtain ⟨t, ht, rfl⟩ := List.mem_map.mp hseg
    have hmem : append_mangled_tys "return" t
        ∈ R.flatMap fun t => [append_mangled_tys "return" t, append_mangled_tys "call_post" t] :=
      List.mem_flatMap.mpr ⟨t, ht, by simp⟩
    refine mem_onDemand_props R A ?_
    simp only [onDemandProps, List.mem_append]
    exact Or.inl (Or.inl (Or.inl (Or.inl (Or.inl (Or.inl (Or.inl (Or.inl (Or.inl
      (Or.inl hmem)))))))))
  · refine mem_onDemand_props R A ?_
    simp only [onDemandProps, List.mem_append]
    exact Or.inl (Or.inl (Or.inl (Or.inl (Or.inl (Or.inl (Or.inl (Or.inl (Or.inl
      (Or.inr hseg)))))))))
  · refine mem_onDemand_props R A ?_
    simp only [onDemandProps, List.mem_append]
    exact Or.inl (Or.inl (Or.inl (Or.inl (Or.inl (Or.inl (Or.inl (Or.inl (Or.inr hseg))))))))
  · refine mem_onDemand_props R A ?_
    simp only [onDemandProps, List.mem_append]
    exact Or.inl (Or.inl (Or.inl (Or.inl (Or.inl (Or.inl (Or.inl (Or.inr hseg)))))))
  · refine mem_onDemand_props R A ?_
    simp only [onDemandProps, List.mem_append]
    exact Or.inl (Or.inl (Or.inl (Or.inl (Or.inl (Or.inl (Or.inr hseg))))))
  · refine mem_onDemand_props R A ?_
    simp only [onDemandProps, List.mem_append]
    exact Or.inl (Or.inl (Or.inl (Or.inl (Or.inl (Or.inr hseg)))))
  · refine mem_onDemand_props R A ?_
    simp only [onDemandProps, List.mem_append]
    exact Or.inl (Or.inl (Or.inl (Or.inl (Or.inr hseg))))
  · refine mem_onDemand_props R A ?_
    simp only [onDemandProps, List.mem_append]
    exact Or.inl (Or.inl (Or.inl (Or.inr hseg)))
  · refine mem_onDemand_props R A ?_
    simp only [onDemandProps, List.mem_append]
    exact Or.inl (Or.inl (Or.inr hseg))
  · refine mem_onDemand_props R A ?_
    simp only [onDemandProps, List.mem_append]
    exact Or.inl (Or.inr hseg)
  · exact absurd hseg h3
  · -- control hooks
    have hc : n ∈ ["if_", "br", "br_if", "br_table", "begin_function", "end_function",
        "begin_block", "end_block", "begin_loop", "end_loop", "begin_if", "end_if",
        "begin_else", "end_else", "nop", "unreachable", "current_memory", "grow_memory"] := by
      simpa [controlHooks, add_hook] using hseg
    have hs : n ∈ staticLowlevelProps := by
      fin_cases hc <;> first | decide | exact absurd rfl h1 | exact absurd rfl h2
    exact mem_static_props R A n hs
  · refine mem_onDemand_props R A ?_
    simp only [onDemandProps, List.mem_append]
    exact Or.inr hseg

set_option maxRecDepth 100000 in
/-- C5 witness: the hook registered as `nop` (not one of the renamed ones)
does have a property of the same name in the shim. -/
theorem lowlevel_props_amended_witness :
    "nop" ∈ lowlevelHookProps [[]] [[]] :=
  (lowlevel_props_amended [[]] [[]]).1 "nop" (by decide) (by decide) (by decide) (by decide)

/-- C3: for any 64-bit value, executing the emitted split sequence pushes
the two 32-bit halves (high on top), and the shim's `Long(low, high)`
reassembly recovers the value bitwise. -/
theorem i64_split_roundtrip (v : Nat) (hv : v < 2 ^ 64) (σ : ExecState) (l : Nat)
    (hl : σ.locals l = v) :
    execList (convert_i64_instr (.GetLocal l) I64) σ =
      some ⟨(v / 2 ^ 32) % 2 ^ 32 :: v % 2 ^ 32 :: σ.stack, σ.locals⟩ ∧
    jsLong (v % 2 ^ 32) ((v / 2 ^ 32) % 2 ^ 32) = v := by
  constructor
  · obtain ⟨st, f⟩ := σ
    simp only at hl
    simp [convert_i64_instr, execList, execInstr, i32WrapI64, i64ShrU, hl]
  · have hdiv : v / 2 ^ 32 < 2 ^ 32 := by
      apply Nat.div_lt_of_lt_mul
      calc v < 2 ^ 64 := hv
        _ = 2 ^ 32 * 2 ^ 32 := by norm_num
    rw [jsLong, Nat.mod_eq_of_lt hdiv]
    exact Nat.mod_add_div v (2 ^ 32)

/-- C3 witness: the split/reassembly round trip at the concrete value
2 ^ 33 + 5 (low half 5, high half 2). -/
theorem i64_split_roundtrip_witness :
    execList (convert_i64_instr (.GetLocal 0) I64) ⟨[], fun _ => 2 ^ 33 + 5⟩ =
      some ⟨((2 ^ 33 + 5) / 2 ^ 32) % 2 ^ 32 :: (2 ^ 33 + 5) % 2 ^ 32 :: [],
            fun _ => 2 ^ 33 + 5⟩ ∧
    jsLong ((2 ^ 33 + 5) % 2 ^ 32) (((2 ^ 33 + 5) / 2 ^ 32) % 2 ^ 32) = 2 ^ 33 + 5 :=
  i64_split_roundtrip (2 ^ 33 + 5) (by norm_num) ⟨[], fun _ => 2 ^ 33 + 5⟩ 0 rfl

lemma execList_append (a b : List Instr) (σ : ExecState) :
    execList (a ++ b) σ = (execList a σ).bind (execList b) := by
  induction a generalizing σ with
  | nil => simp [execList]
  | cons i rest ih =>
    simp only [List.cons_append, execList]
    cases execInstr i σ with
    | none => simp
    | some σ' => simp [ih]

lemma execList_sets (M ws rest : List Nat) (f : Nat → Nat) (hlen : ws.length = M.length) :
    execList (M.map .SetLocal) ⟨ws ++ rest, f⟩ =
      some ⟨rest, (M.zip ws).foldl (fun g p => updLocal g p.1 p.2) f⟩ := by
  induction M generalizing ws f with
  | nil =>
    rw [List.length_nil, List.length_eq_zero] at hlen
    subst hlen
    simp [execList]
  | cons m M' ih =>
    cases ws with
    | nil => simp at hlen
    | cons w ws' =>
      simp only [List.length_cons, Nat.succ_inj] at hlen
      simp only [List.map_cons, execList, List.cons_append, execInstr, List.zip_cons_cons,
        List.foldl_cons]
      exact ih ws' (updLocal f m w) hlen

lemma execList_gets (K st : List Nat) (f : Nat → Nat) :
    execList (K.map .GetLocal) ⟨st, f⟩ = some ⟨(K.map f).reverse ++ st, f⟩ := by
  induction K generalizing st with
  | nil => simp [execList]
  | cons k K' ih =>
    simp only [List.map_cons, execList, execInstr, List.reverse_cons, List.append_assoc,
      List.singleton_append]
    exact ih (f k :: st)

lemma foldl_upd_not_mem (pairs : List (Nat × Nat)) (f : Nat → Nat) (x : Nat)
    (hx : x ∉ pairs.map Prod.fst) :
    (pairs.foldl (fun g p => updLocal g p.1 p.2) f) x = f x := by
  induction pairs generalizing f with
  | nil => rfl
  | cons p ps ih =>
    simp only [List.map_cons, List.mem_cons, not_or] at hx
    simp only [List.foldl_cons]
    rw [ih _ hx.2, updLocal, if_neg hx.1]

lemma foldl_upd_lookup (M ws : List Nat) (f : Nat → Nat) (j : Nat) (l v : Nat)
    (hnd : M.Nodup) (hlen : ws.length = M.length)
    (hl : M.get? j = some l) (hv : ws.get? j = some v) :
    ((M.zip ws).foldl (fun g p => updLocal g p.1 p.2) f) l = v := by
  induction M generalizing ws f j with
  | nil => simp at hl
  | cons m M' ih =>
    cases ws with
    | nil => simp at hv
    | cons w ws' =>
      simp only [List.length_cons, Nat.succ_inj] at hlen
      simp only [List.nodup_cons] at hnd
      cases j with
      | zero =>
        simp only [List.get?_cons_zero, Option.some_inj] at hl hv
        subst hl
        subst hv
        simp only [List.zip_cons_cons, List.foldl_cons]
        rw [foldl_upd_not_mem]
        · simp [updLocal]
        · rw [List.map_fst_zip _ _ (le_of_eq hlen.symm)]
          exact hnd.1
      | succ j' =>
        simp only [List.get?_cons_succ] at hl hv
        simp only [List.zip_cons_cons, List.foldl_cons]
        exact ih ws' _ j' hnd.2 hlen hl hv

/-- C2: `save_stack_to_locals` on pairwise-distinct locals emits the
`set .. set, tee, get .. get` sequence whose execution on a stack with
enough values leaves the stack unchanged and stores the top `n` values, in
left-to-right reading order (deepest first), into the named locals; all
other locals are untouched. The stack `vs` is listed top first, so the
reading order is `vs.reverse`. -/
theorem save_stack_roundtrip (L vs rest : List Nat) (f : Nat → Nat)
    (hnd : L.Nodup) (hlen : vs.length = L.length) :
    ∃ f', execList (save_stack_to_locals L) ⟨vs ++ rest, f⟩ = some ⟨vs ++ rest, f'⟩
      ∧ (∀ i l v, L.get? i = some l → vs.reverse.get? i = some v → f' l = v)
      ∧ (∀ x, x ∉ L → f' x = f x) := by
  cases L with
  | nil =>
    rw [List.length_nil, List.length_eq_zero] at hlen
    subst hlen
    exact ⟨f, by simp [save_stack_to_locals, execList], by simp, fun x _ => rfl⟩
  | cons l0 L' =>
    have hvs : vs ≠ [] := by
      intro h
      rw [h] at hlen
      simp at hlen
    obtain ⟨ws, v0, rfl⟩ : ∃ ws v0, vs = ws ++ [v0] :=
      ⟨vs.dropLast, vs.getLast hvs, (List.dropLast_append_getLast hvs).symm⟩
    have hws_len : ws.length = L'.length := by
      simp only [List.length_append, List.length_cons, List.length_nil] at hlen
      omega
    simp only [List.nodup_cons] at hnd
    -- the three phases
    have hsave : save_stack_to_locals (l0 :: L')
        = (L'.reverse.map .SetLocal) ++ ([Instr.TeeLocal l0] ++ L'.map .GetLocal) := by
      simp [save_stack_to_locals, List.append_assoc]
    have hstack : (ws ++ [v0]) ++ rest = ws ++ (v0 :: rest) := by
      simp [List.append_assoc]
    set f1 : Nat → Nat := (L'.reverse.zip ws).foldl (fun g p => updLocal g p.1 p.2) f with hf1
    set f2 : Nat → Nat := updLocal f1 l0 v0 with hf2
    -- value lookup in f1
    have hlook : ∀ j l v, L'.get? j = some l → ws.reverse.get? j = some v → f1 l = v := by
      intro j l v hl hv
      have hj : j < L'.length := by
        by_contra hc
        rw [List.get?_eq_none.mpr (by omega)] at hl
        exact Option.noConfusion hl
      have hjw : j < ws.length := hws_len ▸ hj
      have hl' : L'.reverse.get? (L'.length - 1 - j) = some l := by
        rw [List.get?_reverse (by omega : L'.length - 1 - j < L'.length)]
        have heq : L'.length - 1 - (L'.length - 1 - j) = j := by omega
        rw [heq]
        exact hl
      have hv' : ws.get? (L'.length - 1 - j) = some v := by
        rw [List.get?_reverse hjw] at hv
        have heq : ws.length - 1 - j = L'.length - 1 - j := by omega
        rw [heq] at hv
        exact hv
      exact foldl_upd_lookup L'.reverse ws f (L'.length - 1 - j) l v
        (List.nodup_reverse.mpr hnd.2) (by simpa using hws_len) hl' hv'
    have hmem_ne : ∀ l, l ∈ L' → l ≠ l0 := by
      intro l hl he
      exact hnd.1 (he ▸ hl)
    -- the read-back values
    have hmap : L'.map f2 = ws.reverse := by
      apply List.ext_get?
      intro j
      rcases Nat.lt_or_ge j L'.length with hj | hj
      · have hjw : j < ws.reverse.length := by
          rw [List.length_reverse]
          omega
        obtain ⟨l, hl⟩ : ∃ l, L'.get? j = some l := ⟨L'.get ⟨j, hj⟩, List.get?_eq_get hj⟩
        obtain ⟨v, hv⟩ : ∃ v, ws.reverse.get? j = some v :=
          ⟨ws.reverse.get ⟨j, hjw⟩, List.get?_eq_get hjw⟩
        have hne : l ≠ l0 := hmem_ne l (List.get?_mem hl)
        have hval : f2 l = v := by
          rw [hf2, updLocal, if_neg hne]
          exact hlook j l v hl hv
        rw [List.get?_map, hl, hv, Option.map_some']
        exact congrArg some hval
      · have h1 : (L'.map f2).get? j = none := List.get?_eq_none.mpr (by simpa using hj)
        have h2 : ws.reverse.get? j = none := by
          refine List.get?_eq_none.mpr ?_
          rw [List.length_reverse]
          omega
        rw [h1, h2]
    refine ⟨f2, ?_, ?_, ?_⟩
    · rw [hsave, hstack, execList_append]
      rw [execList_sets L'.reverse ws (v0 :: rest) f (by simpa using hws_len)]
      rw [← hf1, Option.some_bind, execList_append]
      have htee : execList [Instr.TeeLocal l0] ⟨v0 :: rest, f1⟩ = some ⟨v0 :: rest, f2⟩ := by
        simp [execList, execInstr, hf2]
      rw [htee, Option.some_bind, execList_gets, hmap, List.reverse_reverse]
    · intro i l v hl hv
      rw [List.reverse_append, List.reverse_singleton, List.singleton_append] at hv
      cases i with
      | zero =>
        rw [List.get?_cons_zero, Option.some_inj] at hl hv
        subst hl
        subst hv
        simp [hf2, updLocal]
      | succ j =>
        rw [List.get?_cons_succ] at hl hv
        have hne : l ≠ l0 := hmem_ne l (List.get?_mem hl)
        rw [hf2, updLocal, if_neg hne]
        exact hlook j l v hl hv
    · intro x hx
      simp only [List.mem_cons, not_or] at hx
      rw [hf2, updLocal, if_neg hx.1, hf1]
      apply foldl_upd_not_mem
      rw [List.map_fst_zip _ _ (by simpa using le_of_eq hws_len.symm)]
      simpa using hx.2

/-- C2 witness: saving the two-value stack `[10, 20]` (10 on top) to the
distinct locals 5 and 7 leaves the stack unchanged and stores 20 in local 5
and 10 in local 7. -/
theorem save_stack_roundtrip_witness :
    ∃ f', execList (save_stack_to_locals [5, 7]) ⟨[10, 20], fun _ => 0⟩ =
        some ⟨[10, 20], f'⟩ ∧ f' 5 = 20 ∧ f' 7 = 10 := by
  obtain ⟨f', hrun, hvals, -⟩ :=
    save_stack_roundtrip [5, 7] [10, 20] [] (fun _ => 0) (by decide) (by decide)
  exact ⟨f', by simpa using hrun, hvals 0 5 20 rfl rfl, hvals 1 7 10 rfl rfl⟩

/-- C4: instrumenting the function at index 0 with body `end` yields
exactly `const 0; const -1; call begin_function_hook; const 0; const 0;
call end_function_hook; end`, for any hook assignment. -/
theorem empty_function_instrumented (hooks : Hooks) :
    instrumentFunction hooks [] [] 0 [] [] [] [] [.End] =
      some ([.I32Const 0, .I32Const (-1), .Call hooks.begin_function_hook,
             .I32Const 0, .I32Const 0, .Call hooks.end_function_hook, .End],
            ⟨[], [], [], []⟩) := by
  have h0 : usizeToI32 0 = 0 := by norm_num [usizeToI32]
  simp [instrumentFunction, instrumentInstrs, instrStep, h0]

/-- C7: the `else` arm closing an `If b` frame emits `end_else_hook`
passing the If's begin index `b` (not `end_if_hook`), and the `end` arm
closing an `Else b` frame emits the same `end_else_hook` passing the
Else's begin index `b`. -/
theorem else_and_end_use_end_else_hook (hooks : Hooks) (globals : List ValType)
    (funcTypes : List FunctionType) (params results : List ValType)
    (fidx iidx b : Nat) (rest : List Begin) (s : FuncState)
    (bt : Option ValType) (ts : TypeStack) :
    (s.blockStack = .If b :: rest → s.typeStack.endBlock = some (bt, ts) →
      instrStep hooks globals funcTypes params results fidx iidx .Else s =
        some ([.I32Const (usizeToI32 fidx), .I32Const (usizeToI32 iidx),
               .I32Const (usizeToI32 b), .Call hooks.end_else_hook,
               .Else, .I32Const (usizeToI32 fidx), .I32Const (usizeToI32 iidx),
               .Call hooks.begin_else_hook],
              { s with blockStack := .Else iidx :: rest, typeStack := ts.beginBlock bt })) ∧
    (s.blockStack = .Else b :: rest → s.typeStack.endBlock = some (bt, ts) →
      instrStep hooks globals funcTypes params results fidx iidx .End s =
        some ([.I32Const (usizeToI32 fidx), .I32Const (usizeToI32 iidx),
               .I32Const (usizeToI32 b), .Call hooks.end_else_hook, .End],
              { s with blockStack := rest, typeStack := ts })) := by
  constructor
  · intro h1 h2
    simp [instrStep, h1, h2]
  · intro h1 h2
    simp [instrStep, h1, h2]

/-- C7 witness: the two emissions at a concrete state (an If frame begun
at instruction 3, resp. an Else frame begun at instruction 3). -/
theorem else_and_end_use_end_else_hook_witness :
    (instrStep ⟨0, 1, 2, 3, 4, 5, 6, 7, 8, 9, 10, 11, 12, 13, 14, 15, 16, 17,
        fun _ _ => some 100, fun _ => some 101, fun _ => some 102⟩
        [] [] [] [] 1 5 .Else ⟨[], [.If 3, .Function], [.blockBegin none], []⟩ =
      some ([.I32Const (usizeToI32 1), .I32Const (usizeToI32 5),
             .I32Const (usizeToI32 3), .Call 13,
             .Else, .I32Const (usizeToI32 1), .I32Const (usizeToI32 5), .Call 12],
            ⟨[], [.Else 5, .Function], [.blockBegin none], []⟩)) ∧
    (instrStep ⟨0, 1, 2, 3, 4, 5, 6, 7, 8, 9, 10, 11, 12, 13, 14, 15, 16, 17,
        fun _ _ => some 100, fun _ => some 101, fun _ => some 102⟩
        [] [] [] [] 1 6 .End ⟨[], [.Else 3, .Function], [.blockBegin none], []⟩ =
      some ([.I32Const (usizeToI32 1), .I32Const (usizeToI32 6),
             .I32Const (usizeToI32 3), .Call 13, .End],
            ⟨[], [.Function], [], []⟩)) := by
  constructor
  · exact (else_and_end_use_end_else_hook _ [] [] [] [] 1 5 3 [.Function]
      ⟨[], [.If 3, .Function], [.blockBegin none], []⟩ none []).1 rfl rfl
  · exact (else_and_end_use_end_else_hook _ [] [] [] [] 1 6 3 [.Function]
      ⟨[], [.Else 3, .Function], [.blockBegin none], []⟩ none []).2 rfl rfl

lemma instrStep_mem (hooks : Hooks) (globals : List ValType) (funcTypes : List FunctionType)
    (params results : List ValType) (fidx iidx : Nat) (instr : Instr) (s : FuncState)
    (chunk : List Instr) (s' : FuncState)
    (h : instrStep hooks globals funcTypes params results fidx iidx instr s = some (chunk, s'))
    (hnd : instr ≠ .Drop) : instr ∈ chunk := by
  cases instr <;>
    simp only [instrStep] at h <;>
    (repeat' split at h) <;>
    first
      | exact Option.noConfusion h
      | exact absurd rfl hnd
      | (obtain ⟨rfl, rfl⟩ := (Prod.mk.injEq _ _ _ _).mp (Option.some.inj h)
         simp [convert_i64_instr])

lemma instrumentInstrs_sublist (hooks : Hooks) (globals : List ValType)
    (funcTypes : List FunctionType) (params results : List ValType) (fidx : Nat) :
    ∀ (body : List Instr) (iidx : Nat) (s : FuncState) (out : List Instr) (s'' : FuncState),
      instrumentInstrs hooks globals funcTypes params results fidx iidx body s = some (out, s'') →
      (body.filter fun i => decide (i ≠ .Drop)).Sublist out := by
  intro body
  induction body with
  | nil =>
    intro iidx s out s'' h
    simp only [instrumentInstrs, Option.some.injEq, Prod.mk.injEq] at h
    obtain ⟨rfl, rfl⟩ := h
    simp
  | cons instr rest ih =>
    intro iidx s out s'' h
    simp only [instrumentInstrs] at h
    split at h
    · exact Option.noConfusion h
    case _ chunk s' heq =>
      split at h
      · exact Option.noConfusion h
      case _ out' s''' heq' =>
        obtain ⟨rfl, rfl⟩ := (Prod.mk.injEq _ _ _ _).mp (Option.some.inj h)
        by_cases hd : instr = .Drop
        · subst hd
          have hfil : (Instr.Drop :: rest).filter (fun i => decide (i ≠ .Drop))
              = rest.filter (fun i => decide (i ≠ .Drop)) := by
            simp [List.filter_cons]
          rw [hfil]
          exact (ih _ _ _ _ heq').trans (List.sublist_append_right chunk out')
        · have hmem : instr ∈ chunk :=
            instrStep_mem hooks globals funcTypes params results fidx iidx instr s chunk s'
              heq hd
          have hfil : (instr :: rest).filter (fun i => decide (i ≠ .Drop))
              = instr :: rest.filter (fun i => decide (i ≠ .Drop)) := by
            simp [List.filter_cons, hd]
          rw [hfil]
          have happ := List.Sublist.append (List.singleton_sublist.mpr hmem) (ih _ _ _ _ heq')
          simpa using happ

/-- C1 counterexample: a function whose body contains `drop` (here
`i32.const 7; drop; end`) is instrumented to a body that does not contain
the `drop` instruction at all, so the original instruction sequence is not
a subsequence of the output. -/
theorem drop_vanishes_counterexample :
    ∃ (out : List Instr) (s' : FuncState),
      instrumentFunction
          ⟨0, 1, 2, 3, 4, 5, 6, 7, 8, 9, 10, 11, 12, 13, 14, 15, 16, 17,
           fun _ _ => some 100, fun _ => some 101, fun _ => some 102⟩
          [] [] 0 [] [] [] [] [.I32Const 7, .Drop, .End] = some (out, s') ∧
      Instr.Drop ∉ out ∧
      ¬ ([.I32Const 7, .Drop, .End] : List Instr).Sublist out := by
  refine ⟨[.I32Const 0, .I32Const (-1), .Call 4,
           .I32Const 0, .I32Const 0, .I32Const 7, .Call 101, .I32Const 7,
           .SetLocal 0, .I32Const 0, .I32Const 1, .GetLocal 0, .Call 100,
           .I32Const 0, .I32Const 2, .Call 5, .End],
          ⟨[I32], [], [], []⟩, by decide, by decide, ?_⟩
  intro hsub
  have hmem : Instr.Drop ∈ ([.I32Const 0, .I32Const (-1), .Call 4,
      .I32Const 0, .I32Const 0, .I32Const 7, .Call 101, .I32Const 7,
      .SetLocal 0, .I32Const 0, .I32Const 1, .GetLocal 0, .Call 100,
      .I32Const 0, .I32Const 2, .Call 5, .End] : List Instr) :=
    hsub.subset (by decide)
  exact absurd hmem (by decide)

/-- C1 amended: the instrumented body of a non-imported function contains
the original instruction sequence with the `drop` instructions removed as
a subsequence, in order; every original instruction except `drop`
reappears, while each `drop` is replaced by a `set_local` to a fresh local
(the same stack effect) and does not reappear. -/
theorem instrumentation_preserves_instrs (hooks : Hooks) (globals : List ValType)
    (funcTypes : List FunctionType) (fidx : Nat) (params results locals : List ValType)
    (brTables0 : List BrTableInfo) (body out : List Instr) (s' : FuncState)
    (h : instrumentFunction hooks globals funcTypes fidx params results locals brTables0 body
      = some (out, s')) :
    (body.filter fun i => decide (i ≠ .Drop)).Sublist out := by
  simp only [instrumentFunction] at h
  split at h
  · exact Option.noConfusion h
  case _ out0 s0 heq =>
    split at h
    · obtain ⟨rfl, rfl⟩ := (Prod.mk.injEq _ _ _ _).mp (Option.some.inj h)
      exact (instrumentInstrs_sublist hooks globals funcTypes params results fidx body 0 _ _ _
        heq).trans (List.sublist_append_right _ out0)
    · exact Option.noConfusion h

/-- C1 witness: the filtered original sequence of the counterexample body
is indeed a subsequence of its concrete instrumented output. -/
theorem instrumentation_preserves_instrs_witness :
    (([.I32Const 7, .Drop, .End] : List Instr).filter fun i => decide (i ≠ .Drop)).Sublist
      [.I32Const 0, .I32Const (-1), .Call 4,
       .I32Const 0, .I32Const 0, .I32Const 7, .Call 101, .I32Const 7,
       .SetLocal 0, .I32Const 0, .I32Const 1, .GetLocal 0, .Call 100,
       .I32Const 0, .I32Const 2, .Call 5, .End] :=
  instrumentation_preserves_instrs
    ⟨0, 1, 2, 3, 4, 5, 6, 7, 8, 9, 10, 11, 12, 13, 14, 15, 16, 17,
     fun _ _ => some 100, fun _ => some 101, fun _ => some 102⟩
    [] [] 0 [] [] [] [] [.I32Const 7, .Drop, .End] _ ⟨[I32], [], [], []⟩ (by decide)

/-- C10 witness: a module with one exported and one unexported table. -/
theorem tables_all_exported_witness :
    (exportTables [⟨(1, none), some "T"⟩, ⟨(0, some 2), none⟩])[0]? = some ⟨(1, none), some "T"⟩ ∧
    (exportTables [⟨(1, none), some "T"⟩, ⟨(0, some 2), none⟩])[1]? =
      some ⟨(0, some 2), some "table"⟩ := by
  refine ⟨?_, ?_⟩
  · exact (tables_all_exported [⟨(1, none), some "T"⟩, ⟨(0, some 2), none⟩]).2 0 ⟨(1, none), some "T"⟩ rfl
  · exact (tables_all_exported [⟨(1, none), some "T"⟩, ⟨(0, some 2), none⟩]).2 1 ⟨(0, some 2), none⟩ rfl
